import Mathlib

/-!
Shallow embedding of the 7semi DS18B20 driver (src/7semi_DS18B20.cpp /
src/7semi_DS18B20.h) and proofs about its claims.

The driver talks to a DS18B20 temperature sensor through the external
OneWire bus-transport library.  The bus transport is abstracted here as a
`BusModel`: a state type together with the four primitives the driver
uses inside the functions under study (`reset`, `select`, `write`,
`read`).  Every driver function is translated statement-by-statement from
the C++ source into a Lean function over that abstract bus, additionally
recording the sequence of bus events (resets, selects, command bytes,
read slots, strong-pullup pin changes, delays) so that temporal claims
about the transaction order can be stated.

Machine integers are modelled as `Nat` with explicit `% 256` masking at
the points where the C++ code holds a `uint8_t`, `Int` for the signed
`int8_t`/`int16_t` values with explicit twos-complement conversions, and
`ℚ` for the single `float` result (`raw / 16.0f`; every `int16 / 16`
value is exactly representable in IEEE single precision, so the rational
model is exact for the values this code produces).
-/

namespace DS18B20

/-! ## CRC-8

`OneWire::crc8` (external collaborator, Dallas/Maxim 1-Wire CRC-8,
polynomial X^8 + X^5 + X^4 + 1, bit-reversed constant 0x8C, initial
value 0), translated from the OneWire library routine the driver calls:
per input byte, eight iterations of
`mix := (crc ^ inbyte) & 1; crc >>= 1; if mix then crc ^= 0x8C;
inbyte >>= 1`. -/

/-- Runs `n` bit-iterations of the Dallas/Maxim CRC-8 inner loop on
accumulator `crc` and input byte `inbyte`. -/
def crc8Bits : Nat → Nat → Nat → Nat
  | 0, crc, _ => crc
  | n + 1, crc, inbyte =>
      let mix := (crc ^^^ inbyte) &&& 1
      let crc2 := crc >>> 1
      let crc3 := if mix = 1 then crc2 ^^^ 0x8C else crc2
      crc8Bits n crc3 (inbyte >>> 1)

/-- One full byte step of the CRC (eight bit iterations). -/
def crc8Update (crc b : Nat) : Nat := crc8Bits 8 crc b

/-- Model of `OneWire::crc8` over a byte list, initial accumulator 0. -/
def crc8 (data : List Nat) : Nat := data.foldl crc8Update 0

/-- A one-hot error pattern: `len` zero bytes with byte `i` replaced by `m`. -/
def pat (len i m : Nat) : List Nat := (List.replicate len 0).set i m

/-- Pointwise XOR of two byte lists. -/
def zipXor (l₁ l₂ : List Nat) : List Nat := List.zipWith (· ^^^ ·) l₁ l₂

theorem shiftRight_xor (a b i : Nat) : (a ^^^ b) >>> i = a >>> i ^^^ b >>> i := by
  apply Nat.eq_of_testBit_eq
  intro k
  simp [Nat.testBit_shiftRight, Nat.testBit_xor]

theorem and_one_cases (a : Nat) : a &&& 1 = 0 ∨ a &&& 1 = 1 := by
  rw [Nat.and_one_is_mod a]
  omega

theorem xor_left_comm (a b c : Nat) : a ^^^ (b ^^^ c) = b ^^^ (a ^^^ c) := by
  rw [← Nat.xor_assoc, Nat.xor_comm a b, Nat.xor_assoc]

/-- The CRC bit loop is GF(2)-linear in (accumulator, input byte). -/
theorem crc8Bits_linear (n : Nat) :
    ∀ c₁ c₂ b₁ b₂ : Nat,
      crc8Bits n (c₁ ^^^ c₂) (b₁ ^^^ b₂) = crc8Bits n c₁ b₁ ^^^ crc8Bits n c₂ b₂ := by
  induction n with
  | zero => intro c₁ c₂ b₁ b₂; rfl
  | succ n ih =>
      intro c₁ c₂ b₁ b₂
      show crc8Bits n _ _ = _
      have hmix : ((c₁ ^^^ c₂) ^^^ (b₁ ^^^ b₂)) &&& 1
          = ((c₁ ^^^ b₁) &&& 1) ^^^ ((c₂ ^^^ b₂) &&& 1) := by
        rw [← Nat.and_xor_distrib_right]
        congr 1
        rw [Nat.xor_assoc, ← Nat.xor_assoc c₂, Nat.xor_comm c₂ b₁, Nat.xor_assoc b₁,
          ← Nat.xor_assoc]
      have hstep :
          (if ((c₁ ^^^ c₂) ^^^ (b₁ ^^^ b₂)) &&& 1 = 1 then (c₁ ^^^ c₂) >>> 1 ^^^ 0x8C
            else (c₁ ^^^ c₂) >>> 1)
          = (if (c₁ ^^^ b₁) &&& 1 = 1 then c₁ >>> 1 ^^^ 0x8C else c₁ >>> 1)
            ^^^ (if (c₂ ^^^ b₂) &&& 1 = 1 then c₂ >>> 1 ^^^ 0x8C else c₂ >>> 1) := by
        rw [hmix, shiftRight_xor c₁ c₂ 1]
        rcases and_one_cases (c₁ ^^^ b₁) with h₁ | h₁ <;>
          rcases and_one_cases (c₂ ^^^ b₂) with h₂ | h₂ <;>
          simp [h₁, h₂, Nat.xor_assoc, Nat.xor_comm, xor_left_comm]
      simp only [crc8Bits]
      rw [hstep, shiftRight_xor b₁ b₂ 1]
      exact ih _ _ _ _

theorem crc8Update_linear (c₁ c₂ b₁ b₂ : Nat) :
    crc8Update (c₁ ^^^ c₂) (b₁ ^^^ b₂) = crc8Update c₁ b₁ ^^^ crc8Update c₂ b₂ :=
  crc8Bits_linear 8 c₁ c₂ b₁ b₂

theorem crcAux_linear :
    ∀ (l₁ l₂ : List Nat), l₁.length = l₂.length → ∀ c₁ c₂ : Nat,
      List.foldl crc8Update (c₁ ^^^ c₂) (zipXor l₁ l₂)
        = List.foldl crc8Update c₁ l₁ ^^^ List.foldl crc8Update c₂ l₂ := by
  intro l₁
  induction l₁ with
  | nil =>
      intro l₂ hlen c₁ c₂
      cases l₂ with
      | nil => rfl
      | cons x xs => simp at hlen
  | cons x xs ih =>
      intro l₂ hlen c₁ c₂
      cases l₂ with
      | nil => simp at hlen
      | cons y ys =>
          simp only [zipXor, List.zipWith, List.foldl]
          rw [crc8Update_linear c₁ c₂ x y]
          exact ih ys (by simpa using hlen) _ _

theorem crc8_zipXor (l₁ l₂ : List Nat) (hlen : l₁.length = l₂.length) :
    crc8 (zipXor l₁ l₂) = crc8 l₁ ^^^ crc8 l₂ := by
  have h := crcAux_linear l₁ l₂ hlen 0 0
  simpa [crc8] using h

theorem zipXor_zero_right : ∀ l : List Nat, zipXor l (List.replicate l.length 0) = l := by
  intro l
  induction l with
  | nil => rfl
  | cons a as iha =>
      simp only [List.length_cons, List.replicate, zipXor, List.zipWith] at *
      rw [iha]
      simp

theorem pat_succ (len i m : Nat) : pat (len + 1) (i + 1) m = 0 :: pat len i m := by
  simp [pat, List.replicate]

theorem pat_zero (len m : Nat) : pat (len + 1) 0 m = m :: List.replicate len 0 := by
  simp [pat, List.replicate]

/-- XOR-ing byte `i` of a list with `m` is the pointwise XOR with the
one-hot pattern `pat`. -/
theorem set_eq_zipXor_pat :
    ∀ (l : List Nat) (i m : Nat), i < l.length →
      l.set i (l.getD i 0 ^^^ m) = zipXor l (pat l.length i m) := by
  intro l
  induction l with
  | nil => intro i m h; simp at h
  | cons x xs ih =>
      intro i m h
      cases i with
      | zero =>
          rw [List.length_cons, pat_zero]
          simp only [List.getD_cons_zero, List.set, zipXor, List.zipWith]
          rw [Nat.xor_comm]
          congr 1
          exact (zipXor_zero_right xs).symm
      | succ i =>
          have h' : i < xs.length := by simpa using h
          rw [List.length_cons, pat_succ]
          simp only [List.getD_cons_succ, List.set, zipXor, List.zipWith]
          congr 1
          · exact (Nat.xor_zero x).symm
          · exact ih i m h'

/-- XOR-ing byte `i` of a list with a pattern whose CRC is nonzero
changes the CRC of the list. -/
theorem crc8_flip_ne (l : List Nat) (i m : Nat) (hi : i < l.length)
    (hm : crc8 (pat l.length i m) ≠ 0) :
    crc8 (l.set i (l.getD i 0 ^^^ m)) ≠ crc8 l := by
  rw [set_eq_zipXor_pat l i m hi, crc8_zipXor l (pat l.length i m) (by simp [pat])]
  intro hc
  apply hm
  have h2 : crc8 l ^^^ (crc8 l ^^^ crc8 (pat l.length i m)) = crc8 l ^^^ crc8 l := by
    rw [hc]
  rw [← Nat.xor_assoc, Nat.xor_self, Nat.zero_xor] at h2
  simpa using h2

set_option maxRecDepth 10000 in
/-- No single-bit error pattern over 8 bytes has CRC-8 zero
(64 concrete checks: the polynomial has no single-term multiple here). -/
theorem crc8_single_bit_pat_ne_zero :
    ∀ i < 8, ∀ j < 8, crc8 (pat 8 i (1 <<< j)) ≠ 0 := by decide

/-! ## Machine-integer conversions -/

/-- The `uint8_t` truncation of a signed value (the C++ `(uint8_t)x` cast of an
`int8_t`). -/
def toByte (i : Int) : Nat := (i % 256).toNat

/-- The `(int8_t)b` reinterpretation of an unsigned byte. -/
def toInt8 (b : Nat) : Int := if b % 256 < 128 then (b % 256 : Int) else (b % 256 : Int) - 256

/-- The `(int16_t)n` reinterpretation of an unsigned 16-bit value. -/
def toInt16 (n : Nat) : Int :=
  if n % 65536 < 32768 then (n % 65536 : Int) else (n % 65536 : Int) - 65536

theorem toByte_lt (i : Int) : toByte i < 256 := by
  unfold toByte
  omega

theorem toByte_toInt8 (b : Nat) (h : b < 256) : toByte (toInt8 b) = b := by
  unfold toByte toInt8
  split <;> omega

theorem toInt8_toByte (i : Int) (h₁ : -128 ≤ i) (h₂ : i ≤ 127) : toInt8 (toByte i) = i := by
  unfold toByte toInt8
  split <;> omega

/-! ## Bus transport abstraction

The OneWire transport is an external collaborator.  The driver functions
under study use exactly four of its primitives; we abstract them as a
record of transition functions over an arbitrary bus-state type, and run
the driver over a state that pairs the bus with the recorded event
trace. -/

/-- Observable bus/pin events, in issue order. -/
inductive Ev
  | reset
  | select (addr : List Nat)
  | write (b : Nat)
  | readByte (b : Nat)
  | pullup (hi : Bool)
  | delayMs (ms : Nat)
deriving DecidableEq

/-- The OneWire primitives the modelled driver functions call. -/
structure BusModel (σ : Type) where
  reset : σ → σ
  select : List Nat → σ → σ
  write : Nat → σ → σ
  read : σ → Nat × σ

/-- Driver configuration: the bus model and the strong-pullup pin number
(`_strongPullupPin`, negative when not configured). -/
structure Ctx (σ : Type) where
  M : BusModel σ
  pin : Int

/-- Driver-visible state: bus state plus the event trace so far. -/
structure Drv (σ : Type) where
  bus : σ
  events : List Ev

/-- Fresh driver state over a given bus state (empty trace). -/
def initDrv {σ : Type} (b : σ) : Drv σ := ⟨b, []⟩

/-- Model of `oneWire.reset()`. -/
def owReset {σ : Type} (C : Ctx σ) (s : Drv σ) : Drv σ :=
  ⟨C.M.reset s.bus, s.events ++ [Ev.reset]⟩

/-- Model of `oneWire.select(addr)`. -/
def owSelect {σ : Type} (C : Ctx σ) (addr : List Nat) (s : Drv σ) : Drv σ :=
  ⟨C.M.select addr s.bus, s.events ++ [Ev.select addr]⟩

/-- Model of `oneWire.write(b)`; the argument is a `uint8_t`, hence the mask. -/
def owWrite {σ : Type} (C : Ctx σ) (b : Nat) (s : Drv σ) : Drv σ :=
  ⟨C.M.write (b % 256) s.bus, s.events ++ [Ev.write (b % 256)]⟩

/-- Model of `oneWire.read()`; the returned value is a `uint8_t`, hence the mask. -/
def owRead {σ : Type} (C : Ctx σ) (s : Drv σ) : Nat × Drv σ :=
  ((C.M.read s.bus).1 % 256,
   ⟨(C.M.read s.bus).2, s.events ++ [Ev.readByte ((C.M.read s.bus).1 % 256)]⟩)

/-- Model of `_strongPullup(on)`: drives the pullup pin, a no-op when
`_strongPullupPin < 0`. -/
def strongPullup {σ : Type} (C : Ctx σ) (hi : Bool) (s : Drv σ) : Drv σ :=
  if C.pin < 0 then s else ⟨s.bus, s.events ++ [Ev.pullup hi]⟩

/-- Model of `delay(ms)` (timing primitive; recorded as an event). -/
def delayEv {σ : Type} (ms : Nat) (s : Drv σ) : Drv σ :=
  ⟨s.bus, s.events ++ [Ev.delayMs ms]⟩

/-! ## Driver functions (translated from src/7semi_DS18B20.cpp) -/

/-- Model of `DS18B20_7semi::readScratchpad`: reset, select, command 0xBE, clock
out 9 bytes, accept iff CRC-8 over the first 8 equals the 9th.  The
buffer is filled either way (C++ output parameter). -/
def readScratchpad {σ : Type} (C : Ctx σ) (addr : List Nat) (s : Drv σ) :
    (Bool × List Nat) × Drv σ :=
  let s1 := owWrite C 0xBE (owSelect C addr (owReset C s))
  let r0 := owRead C s1
  let r1 := owRead C r0.2
  let r2 := owRead C r1.2
  let r3 := owRead C r2.2
  let r4 := owRead C r3.2
  let r5 := owRead C r4.2
  let r6 := owRead C r5.2
  let r7 := owRead C r6.2
  let r8 := owRead C r7.2
  let buffer := [r0.1, r1.1, r2.1, r3.1, r4.1, r5.1, r6.1, r7.1, r8.1]
  if crc8 (buffer.take 8) ≠ buffer.getD 8 0 then ((false, buffer), r8.2)
  else ((true, buffer), r8.2)

/-- Model of `DS18B20_7semi::readPowerSupply`: reset, select, command 0xB4, one
read slot; reports external power exactly when the byte read equals 1,
and always returns `true`. -/
def readPowerSupply {σ : Type} (C : Ctx σ) (addr : List Nat) (s : Drv σ) :
    (Bool × Bool) × Drv σ :=
  let s1 := owWrite C 0xB4 (owSelect C addr (owReset C s))
  let r := owRead C s1
  ((true, r.1 == 1), r.2)

/-- Model of `DS18B20_7semi::isParasitePower`: parasite iff the power-supply query
reports non-external; `false` when the query itself fails. -/
def isParasitePower {σ : Type} (C : Ctx σ) (addr : List Nat) (s : Drv σ) :
    Bool × Drv σ :=
  let r := readPowerSupply C addr s
  if r.1.1 = false then (false, r.2) else (!r.1.2, r.2)

/-- Model of `DS18B20_7semi::writeScratchpad`: reset, select, command 0x4E, write
TH, TL, config, then read the scratchpad back and require bytes 2..4 to
echo the written values. -/
def writeScratchpad {σ : Type} (C : Ctx σ) (addr : List Nat) (th tl : Int) (config : Nat)
    (s : Drv σ) : Bool × Drv σ :=
  let cfgB := config % 256
  let s1 := owWrite C cfgB (owWrite C (toByte tl) (owWrite C (toByte th)
    (owWrite C 0x4E (owSelect C addr (owReset C s)))))
  let r := readScratchpad C addr s1
  if r.1.1 = false then (false, r.2)
  else if r.1.2.getD 2 0 ≠ toByte th ∨ r.1.2.getD 3 0 ≠ toByte tl ∨ r.1.2.getD 4 0 ≠ cfgB then
    (false, r.2)
  else (true, r.2)

/-- Model of `DS18B20_7semi::copyScratchpad`: reset, select, command 0x48, then
query power mode and, when parasite-powered and a pullup pin is
configured, assert the pullup around an 11 ms delay. -/
def copyScratchpad {σ : Type} (C : Ctx σ) (addr : List Nat) (s : Drv σ) : Bool × Drv σ :=
  let s1 := owWrite C 0x48 (owSelect C addr (owReset C s))
  let r := readPowerSupply C addr s1
  let s2 := if r.1.2 = false ∧ 0 ≤ C.pin then strongPullup C true r.2 else r.2
  let s3 := delayEv 11 s2
  let s4 := if r.1.2 = false ∧ 0 ≤ C.pin then strongPullup C false s3 else s3
  (true, s4)

/-- Model of `DS18B20_7semi::getResolution`: read the scratchpad, return 0 on CRC
failure, otherwise map config bits 6:5 to 9..12 (default 12). -/
def getResolution {σ : Type} (C : Ctx σ) (addr : List Nat) (s : Drv σ) : Nat × Drv σ :=
  let r := readScratchpad C addr s
  if r.1.1 = false then (0, r.2)
  else
    let rb := r.1.2.getD 4 0 &&& 0x60
    if rb = 0x00 then (9, r.2)
    else if rb = 0x20 then (10, r.2)
    else if rb = 0x40 then (11, r.2)
    else if rb = 0x60 then (12, r.2)
    else (12, r.2)

/-- Model of `DS18B20_7semi::setResolution`: reject resolutions outside 9..12
before any bus activity; otherwise read the scratchpad to preserve
TH/TL, write the config byte with the R1/R0 bits, optionally persist to
EEPROM. -/
def setResolution {σ : Type} (C : Ctx σ) (addr : List Nat) (resolution : Nat) (persist : Bool)
    (s : Drv σ) : Bool × Drv σ :=
  if resolution < 9 ∨ 12 < resolution then (false, s)
  else
    let r := readScratchpad C addr s
    if r.1.1 = false then (false, r.2)
    else
      let th := toInt8 (r.1.2.getD 2 0)
      let tl := toInt8 (r.1.2.getD 3 0)
      let rbits := if resolution = 9 then 0x00
        else if resolution = 10 then 0x20
        else if resolution = 11 then 0x40
        else 0x60
      let w := writeScratchpad C addr th tl (rbits ||| 0x1F) r.2
      if w.1 = false then (false, w.2)
      else if persist then
        let cp := copyScratchpad C addr w.2
        if cp.1 = false then (false, cp.2) else (true, cp.2)
      else (true, w.2)

/-- Model of `DS18B20_7semi::setAlarms`: read the scratchpad to preserve the
config byte, write TH/TL with it, optionally persist to EEPROM. -/
def setAlarms {σ : Type} (C : Ctx σ) (addr : List Nat) (th tl : Int) (persist : Bool)
    (s : Drv σ) : Bool × Drv σ :=
  let r := readScratchpad C addr s
  if r.1.1 = false then (false, r.2)
  else
    let w := writeScratchpad C addr th tl (r.1.2.getD 4 0) r.2
    if w.1 = false then (false, w.2)
    else if persist then copyScratchpad C addr w.2
    else (true, w.2)

/-- Model of `DS18B20_7semi::getAlarms`: read the scratchpad and return bytes 2
and 3 reinterpreted as `int8_t`. -/
def getAlarms {σ : Type} (C : Ctx σ) (addr : List Nat) (s : Drv σ) :
    (Bool × Int × Int) × Drv σ :=
  let r := readScratchpad C addr s
  if r.1.1 = false then ((false, 0, 0), r.2)
  else ((true, toInt8 (r.1.2.getD 2 0), toInt8 (r.1.2.getD 3 0)), r.2)

/-- Model of `DS18B20_7semi::_conversionDelayMs`. -/
def conversionDelayMs (resolution : Nat) : Nat :=
  if resolution = 9 then 94
  else if resolution = 10 then 188
  else if resolution = 11 then 375
  else 750

/-- Model of `DS18B20_7semi::readTemperature`: issue Convert T (0x44), query the
resolution (default 12 when out of range), query power mode, bracket the
conversion delay with the strong pullup when parasite-powered, read the
scratchpad, decode the signed 16-bit register at 1/16 °C.  `NAN` is
modelled as `none`; the `float` result is modelled exactly in `ℚ`. -/
def readTemperature {σ : Type} (C : Ctx σ) (addr : List Nat) (s : Drv σ) :
    Option ℚ × Drv σ :=
  let s1 := owWrite C 0x44 (owSelect C addr (owReset C s))
  let rRes := getResolution C addr s1
  let res := if rRes.1 < 9 ∨ 12 < rRes.1 then 12 else rRes.1
  let rPow := readPowerSupply C addr rRes.2
  let s2 := if rPow.1.1 = true ∧ rPow.1.2 = false ∧ 0 ≤ C.pin
    then strongPullup C true rPow.2 else rPow.2
  let s3 := delayEv (conversionDelayMs res) s2
  let s4 := if rPow.1.1 = true ∧ rPow.1.2 = false ∧ 0 ≤ C.pin
    then strongPullup C false s3 else s3
  let rScr := readScratchpad C addr s4
  if rScr.1.1 = false then (none, rScr.2)
  else
    let raw := toInt16 ((rScr.1.2.getD 1 0) <<< 8 ||| rScr.1.2.getD 0 0)
    (some ((raw : ℚ) / 16), rScr.2)

/-- Model of `DS18B20_7semi::readRawTemperature`: read the scratchpad, deliver the
signed 16-bit register with an explicit success flag. -/
def readRawTemperature {σ : Type} (C : Ctx σ) (addr : List Nat) (s : Drv σ) :
    (Bool × Int) × Drv σ :=
  let r := readScratchpad C addr s
  if r.1.1 = false then ((false, 0), r.2)
  else ((true, toInt16 ((r.1.2.getD 1 0) <<< 8 ||| r.1.2.getD 0 0)), r.2)

/-! ## Discovery

`DS18B20_7semi::searchDevices` drives `oneWire.search` in a loop.  The
loop is modelled by structural recursion over the finite sequence of
candidate addresses the search primitive yields before it reports "no
more devices" (the loop terminates only in such executions).  Per
candidate, the C++ body stores the address into the next registry slot,
keeps it (incrementing `_devices`) exactly when CRC-8 over its first 7
bytes equals its 8th byte, and abandons the search once `_devices`
reaches `DS18B20_MAX_DEVICES = 16`. -/

/-- CRC validity of an 8-byte ROM address, as checked by the driver. -/
def validRom (addr : List Nat) : Bool := crc8 (addr.take 7) == addr.getD 7 0

/-- The `while (oneWire.search(addr))` loop body of `searchDevices`:
`devices` is the `_devices` counter, `acc` the registry contents so
far. -/
def searchLoop (devices : Nat) (acc : List (List Nat)) :
    List (List Nat) → Nat × List (List Nat)
  | [] => (devices, acc)
  | addr :: rest =>
      if devices < 16 then
        if validRom addr then searchLoop (devices + 1) (acc ++ [addr]) rest
        else searchLoop devices acc rest
      else (devices, acc)

/-- Model of `DS18B20_7semi::searchDevices` on the sequence `found` of candidate
addresses the bus search yields: returns the final `_devices` count and
the registry contents. -/
def searchDevices (found : List (List Nat)) : Nat × List (List Nat) :=
  searchLoop 0 [] found

/-! ## Oracle bus instance

A bus whose read slots deliver an arbitrary fixed stream of bytes
(`readFn` indexed by the number of reads performed so far).  This covers
every possible sequence of responses the physical bus can produce for
the read-only transactions, including noise and absent devices. -/

/-- Oracle bus state: the byte stream and the read counter. -/
structure OW where
  readFn : Nat → Nat
  readIdx : Nat

def oracleBus : BusModel OW :=
  { reset := fun b => b
    select := fun _ b => b
    write := fun _ b => b
    read := fun b => (b.readFn b.readIdx, ⟨b.readFn, b.readIdx + 1⟩) }

def oracleCtx (p : Int) : Ctx OW := ⟨oracleBus, p⟩

/-- The 9 scratchpad bytes a read transaction starting at read index `i`
delivers from stream `f`. -/
def owBytes (f : Nat → Nat) (i : Nat) : List Nat :=
  [f i % 256, f (i + 1) % 256, f (i + 2) % 256, f (i + 3) % 256, f (i + 4) % 256,
   f (i + 5) % 256, f (i + 6) % 256, f (i + 7) % 256, f (i + 8) % 256]

/-- Events of one scratchpad read transaction delivering `bytes`. -/
def rsEv (addr : List Nat) (bytes : List Nat) : List Ev :=
  [Ev.reset, Ev.select addr, Ev.write 0xBE] ++ bytes.map Ev.readByte

/-! ## Faithful device instance

For the configuration round-trip claims the bus is connected to a
DS18B20 whose scratchpad reads always succeed and whose scratchpad
writes are echoed back faithfully — exactly the device the claims
hypothesise.  The device state machine: a Read-Scratchpad command (0xBE)
queues the 8 data bytes followed by their correct CRC; a
Write-Scratchpad command (0x4E) routes the next three written bytes into
TH, TL and the config byte; a Read-Power-Supply command (0xB4) queues
the power byte; a bus reset aborts any pending command. -/

structure Dev where
  t0 : Nat
  t1 : Nat
  th : Nat
  tl : Nat
  cfg : Nat
  r5 : Nat
  r6 : Nat
  r7 : Nat
  power : Nat
  pending : List Nat
  wmode : Nat

/-- The 9 bytes the device scratchpad read delivers (the stored bytes as
`uint8_t`, then their CRC-8). -/
def devScratch (d : Dev) : List Nat :=
  [d.t0 % 256, d.t1 % 256, d.th % 256, d.tl % 256, d.cfg % 256, d.r5 % 256, d.r6 % 256,
   d.r7 % 256]
  ++ [crc8 [d.t0 % 256, d.t1 % 256, d.th % 256, d.tl % 256, d.cfg % 256, d.r5 % 256,
    d.r6 % 256, d.r7 % 256]]

def devWrite (b : Nat) (d : Dev) : Dev :=
  if d.wmode = 1 then { d with th := b, wmode := 2 }
  else if d.wmode = 2 then { d with tl := b, wmode := 3 }
  else if d.wmode = 3 then { d with cfg := b, wmode := 0 }
  else if b = 0xBE then { d with pending := devScratch d }
  else if b = 0x4E then { d with wmode := 1 }
  else if b = 0xB4 then { d with pending := [d.power % 256] }
  else d

def devRead (d : Dev) : Nat × Dev :=
  (d.pending.headD 0, { d with pending := d.pending.tail })

def devBus : BusModel Dev :=
  { reset := fun d => { d with wmode := 0, pending := [] }
    select := fun _ d => d
    write := devWrite
    read := devRead }

def devCtx (p : Int) : Ctx Dev := ⟨devBus, p⟩

/-! ## Step lemmas -/

theorem mod256_mod256 (x : Nat) : x % 256 % 256 = x % 256 := by omega

theorem crc8Bits_lt : ∀ (n c b : Nat), c < 256 → crc8Bits n c b < 256 := by
  intro n
  induction n with
  | zero => intro c b h; exact h
  | succ n ih =>
      intro c b h
      show crc8Bits n _ _ < 256
      apply ih
      have h2 : c >>> 1 < 256 := by
        rw [Nat.shiftRight_one]
        omega
      split
      · have : (256 : Nat) = 2 ^ 8 := by norm_num
        rw [this] at h2 ⊢
        exact Nat.xor_lt_two_pow h2 (by norm_num)
      · exact h2

theorem crc8_lt : ∀ (l : List Nat) (c : Nat), c < 256 → List.foldl crc8Update c l < 256 := by
  intro l
  induction l with
  | nil => intro c h; exact h
  | cons x xs ih =>
      intro c h
      exact ih _ (crc8Bits_lt 8 c x h)

theorem crc8_lt_256 (l : List Nat) : crc8 l < 256 :=
  crc8_lt l 0 (by norm_num)

theorem crc8_mod256 (l : List Nat) : crc8 l % 256 = crc8 l :=
  Nat.mod_eq_of_lt (crc8_lt_256 l)

/-- A scratchpad read over the oracle bus: the transaction consumes nine
read slots, delivers their (byte-masked) values, and succeeds exactly
when the CRC over the first eight matches the ninth. -/
theorem readScratchpad_oracle (p : Int) (addr : List Nat) (f : Nat → Nat) (i : Nat)
    (ev : List Ev) :
    readScratchpad (oracleCtx p) addr ⟨⟨f, i⟩, ev⟩ =
      ((decide (crc8 ((owBytes f i).take 8) = (owBytes f i).getD 8 0), owBytes f i),
        ⟨⟨f, i + 9⟩, ev ++ rsEv addr (owBytes f i)⟩) := by
  simp [readScratchpad, owWrite, owSelect, owReset, owRead, oracleCtx, oracleBus, owBytes,
    rsEv, Nat.add_assoc]
  split <;> simp_all

/-- Events of one power-supply query transaction reading byte `v`. -/
def rpEv (addr : List Nat) (v : Nat) : List Ev :=
  [Ev.reset, Ev.select addr, Ev.write 0xB4, Ev.readByte v]

/-- A power-supply query over the oracle bus: consumes one read slot,
always succeeds, reports external power iff the byte equals 1. -/
theorem readPowerSupply_oracle (p : Int) (addr : List Nat) (f : Nat → Nat) (i : Nat)
    (ev : List Ev) :
    readPowerSupply (oracleCtx p) addr ⟨⟨f, i⟩, ev⟩ =
      ((true, f i % 256 == 1), ⟨⟨f, i + 1⟩, ev ++ rpEv addr (f i % 256)⟩) := by
  simp [readPowerSupply, owWrite, owSelect, owReset, owRead, oracleCtx, oracleBus, rpEv]

/-- What `getResolution` computes from the 9 bytes a scratchpad read
delivers. -/
def resOf (bytes : List Nat) : Nat :=
  if crc8 (bytes.take 8) = bytes.getD 8 0 then
    if bytes.getD 4 0 &&& 0x60 = 0x00 then 9
    else if bytes.getD 4 0 &&& 0x60 = 0x20 then 10
    else if bytes.getD 4 0 &&& 0x60 = 0x40 then 11
    else 12
  else 0

/-- Behaviour of `getResolution` over the oracle bus. -/
theorem getResolution_oracle (p : Int) (addr : List Nat) (f : Nat → Nat) (i : Nat)
    (ev : List Ev) :
    getResolution (oracleCtx p) addr ⟨⟨f, i⟩, ev⟩ =
      (resOf (owBytes f i), ⟨⟨f, i + 9⟩, ev ++ rsEv addr (owBytes f i)⟩) := by
  simp only [getResolution, readScratchpad_oracle, resOf]
  by_cases h : crc8 ((owBytes f i).take 8) = (owBytes f i).getD 8 0
  all_goals by_cases h0 : (owBytes f i).getD 4 0 &&& 0x60 = 0x00
  all_goals by_cases h2 : (owBytes f i).getD 4 0 &&& 0x60 = 0x20
  all_goals by_cases h4 : (owBytes f i).getD 4 0 &&& 0x60 = 0x40
  all_goals by_cases h6 : (owBytes f i).getD 4 0 &&& 0x60 = 0x60
  all_goals simp_all

theorem toByte_mod256 (i : Int) : toByte i % 256 = toByte i :=
  Nat.mod_eq_of_lt (toByte_lt i)

/-- A scratchpad read against the faithful device: always succeeds and
delivers the stored bytes with their correct CRC; the device is left
idle with nothing pending. -/
theorem readScratchpad_dev (p : Int) (addr : List Nat) (d : Dev) (ev : List Ev) :
    readScratchpad (devCtx p) addr ⟨d, ev⟩ =
      ((true, devScratch d),
        ⟨{ d with wmode := 0, pending := [] }, ev ++ rsEv addr (devScratch d)⟩) := by
  simp [readScratchpad, owWrite, owSelect, owReset, owRead, devCtx, devBus, devWrite,
    devRead, devScratch, rsEv, mod256_mod256, crc8_mod256]

/-- Device state after a faithful scratchpad write of TH, TL, config. -/
def devW (d : Dev) (th tl : Int) (cfg : Nat) : Dev :=
  { d with th := toByte th, tl := toByte tl, cfg := cfg % 256, wmode := 0, pending := [] }

theorem owReset_dev (p : Int) (d : Dev) (ev : List Ev) :
    owReset (devCtx p) ⟨d, ev⟩ = ⟨{ d with wmode := 0, pending := [] }, ev ++ [Ev.reset]⟩ :=
  rfl

theorem owSelect_dev (p : Int) (addr : List Nat) (d : Dev) (ev : List Ev) :
    owSelect (devCtx p) addr ⟨d, ev⟩ = ⟨d, ev ++ [Ev.select addr]⟩ :=
  rfl

theorem owWrite_dev (p : Int) (b : Nat) (d : Dev) (ev : List Ev) :
    owWrite (devCtx p) b ⟨d, ev⟩ = ⟨devWrite (b % 256) d, ev ++ [Ev.write (b % 256)]⟩ :=
  rfl

/-- A scratchpad write against the faithful device: the three bytes land
in TH/TL/config, the verifying read echoes them, and the call reports
success. -/
theorem writeScratchpad_dev (p : Int) (addr : List Nat) (th tl : Int) (cfg : Nat) (d : Dev)
    (ev : List Ev) :
    writeScratchpad (devCtx p) addr th tl cfg ⟨d, ev⟩ =
      (true, ⟨devW d th tl cfg,
        ev ++ [Ev.reset, Ev.select addr, Ev.write 0x4E, Ev.write (toByte th),
          Ev.write (toByte tl), Ev.write (cfg % 256)]
          ++ rsEv addr (devScratch (devW d th tl cfg))⟩) := by
  simp [writeScratchpad, owWrite_dev, owSelect_dev, owReset_dev, devWrite,
    readScratchpad_dev, devW, devScratch, toByte_mod256, mod256_mod256]

/-! ## C4: resolution round-trip on a faithful device -/

/-- Core of claim C4, quantified over the device contents. -/
theorem setResolution_getResolution_dev (d : Dev) (p : Int) (addr : List Nat) (R : Nat)
    (hR : R = 9 ∨ R = 10 ∨ R = 11 ∨ R = 12) :
    (setResolution (devCtx p) addr R false (initDrv d)).1 = true ∧
    (getResolution (devCtx p) addr (setResolution (devCtx p) addr R false (initDrv d)).2).1
      = R := by
  rcases hR with h | h | h | h <;> subst h <;>
    simp [setResolution, initDrv, readScratchpad_dev, writeScratchpad_dev, getResolution,
      devW, devScratch, mod256_mod256, crc8_mod256,
      (by decide : (31 : Nat) &&& 96 = 0), (by decide : (63 : Nat) &&& 96 = 32),
      (by decide : (95 : Nat) &&& 96 = 64), (by decide : (127 : Nat) &&& 96 = 96)]

/-! ## C5: alarm-threshold round-trip on a faithful device -/

/-- Core of claim C5, quantified over the device contents and the full
signed 8-bit threshold range; the last conjunct records that the config
byte (hence its resolution bits) is rewritten unchanged. -/
theorem setAlarms_getAlarms_dev (d : Dev) (p : Int) (addr : List Nat) (th tl : Int)
    (h1 : -128 ≤ th) (h2 : th ≤ 127) (h3 : -128 ≤ tl) (h4 : tl ≤ 127) :
    (setAlarms (devCtx p) addr th tl false (initDrv d)).1 = true ∧
    (getAlarms (devCtx p) addr (setAlarms (devCtx p) addr th tl false (initDrv d)).2).1
      = (true, th, tl) ∧
    (setAlarms (devCtx p) addr th tl false (initDrv d)).2.bus.cfg = d.cfg % 256 := by
  simp [setAlarms, getAlarms, initDrv, readScratchpad_dev, writeScratchpad_dev, devW,
    devScratch, mod256_mod256, toByte_mod256, toInt8_toByte th h1 h2,
    toInt8_toByte tl h3 h4]

/-! ## C1: scratchpad-read CRC gating -/

/-- Over any bus behaviour, a scratchpad read delivers exactly 9 bytes
and succeeds iff the CRC over the first 8 matches the 9th. -/
theorem readScratchpad_crc_iff {σ : Type} (C : Ctx σ) (addr : List Nat) (s : Drv σ) :
    (readScratchpad C addr s).1.2.length = 9 ∧
      ((readScratchpad C addr s).1.1 = true ↔
        crc8 ((readScratchpad C addr s).1.2.take 8)
          = (readScratchpad C addr s).1.2.getD 8 0) := by
  simp only [readScratchpad]
  split <;> rename_i h <;> simp_all

theorem exists_list9 (s : List Nat) (h9 : s.length = 9) :
    ∃ b0 b1 b2 b3 b4 b5 b6 b7 b8, s = [b0, b1, b2, b3, b4, b5, b6, b7, b8] := by
  rcases s with _ | ⟨b0, s⟩
  · simp at h9
  rcases s with _ | ⟨b1, s⟩
  · simp at h9
  rcases s with _ | ⟨b2, s⟩
  · simp at h9
  rcases s with _ | ⟨b3, s⟩
  · simp at h9
  rcases s with _ | ⟨b4, s⟩
  · simp at h9
  rcases s with _ | ⟨b5, s⟩
  · simp at h9
  rcases s with _ | ⟨b6, s⟩
  · simp at h9
  rcases s with _ | ⟨b7, s⟩
  · simp at h9
  rcases s with _ | ⟨b8, s⟩
  · simp at h9
  rcases s with _ | ⟨b9, s⟩
  · exact ⟨b0, b1, b2, b3, b4, b5, b6, b7, b8, rfl⟩
  · simp at h9

theorem xor_bit_lt_256 (b j : Nat) (hb : b < 256) (hj : j < 8) : b ^^^ (1 <<< j) < 256 := by
  have h1 : (1 <<< j) < 256 := by
    rw [Nat.one_shiftLeft]
    calc 2 ^ j < 2 ^ 8 := Nat.pow_lt_pow_right (by norm_num) hj
    _ = 256 := by norm_num
  have h256 : (256 : Nat) = 2 ^ 8 := by norm_num
  rw [h256] at hb h1 ⊢
  exact Nat.xor_lt_two_pow hb h1

theorem take_set_of_lt :
    ∀ (l : List Nat) (n i v : Nat), i < n → (l.set i v).take n = (l.take n).set i v := by
  intro l
  induction l with
  | nil => intro n i v h; simp
  | cons x xs ih =>
      intro n i v h
      cases i with
      | zero =>
          cases n with
          | zero => omega
          | succ n => simp
      | succ i =>
          cases n with
          | zero => omega
          | succ n => simp [ih n i v (by omega)]

theorem getD_set_ne :
    ∀ (l : List Nat) (i k v d : Nat), i ≠ k → (l.set i v).getD k d = l.getD k d := by
  intro l
  induction l with
  | nil => intro i k v d h; simp
  | cons x xs ih =>
      intro i k v d h
      cases i with
      | zero =>
          cases k with
          | zero => omega
          | succ k => simp
      | succ i =>
          cases k with
          | zero => simp
          | succ k => simpa using ih i k v d (by omega)

theorem getD_set_eq :
    ∀ (l : List Nat) (i v d : Nat), i < l.length → (l.set i v).getD i d = v := by
  intro l
  induction l with
  | nil => intro i v d h; simp at h
  | cons x xs ih =>
      intro i v d h
      cases i with
      | zero => simp
      | succ i => simpa using ih i v d (by simpa using h)

theorem getD_take_lt :
    ∀ (l : List Nat) (n k d : Nat), k < n → (l.take n).getD k d = l.getD k d := by
  intro l
  induction l with
  | nil => intro n k d h; simp
  | cons x xs ih =>
      intro n k d h
      cases n with
      | zero => omega
      | succ n =>
          cases k with
          | zero => simp
          | succ k => simpa using ih n k d (by omega)

theorem getD_lt_of_forall :
    ∀ (l : List Nat) (k : Nat), (∀ b ∈ l, b < 256) → k < l.length → l.getD k 0 < 256 := by
  intro l
  induction l with
  | nil => intro k _ h; simp at h
  | cons x xs ih =>
      intro k hb h
      cases k with
      | zero => exact hb x (by simp)
      | succ k =>
          simp only [List.getD_cons_succ]
          exact ih k (fun b hm => hb b (by simp [hm])) (by simpa using h)

theorem eta9 (l : List Nat) (h9 : l.length = 9) :
    l = [l.getD 0 0, l.getD 1 0, l.getD 2 0, l.getD 3 0, l.getD 4 0, l.getD 5 0, l.getD 6 0,
      l.getD 7 0, l.getD 8 0] := by
  obtain ⟨b0, b1, b2, b3, b4, b5, b6, b7, b8, rfl⟩ := exists_list9 l h9
  rfl

/-- A single bit-flip in any of the first 8 bytes of a CRC-valid
scratchpad image makes `readScratchpad` reject the read: the bus
delivers the flipped image, and the CRC check fails. -/
theorem readScratchpad_flip_reject (p : Int) (addr : List Nat) (ev : List Ev)
    (s : List Nat) (h9 : s.length = 9) (hlt : ∀ b ∈ s, b < 256)
    (hcrc : crc8 (s.take 8) = s.getD 8 0) (i j : Nat) (hi : i < 8) (hj : j < 8) :
    (readScratchpad (oracleCtx p) addr
      ⟨⟨fun n => (s.set i (s.getD i 0 ^^^ (1 <<< j))).getD n 0, 0⟩, ev⟩).1.1 = false := by
  rw [readScratchpad_oracle]
  set m := 1 <<< j with hm
  set fl := s.set i (s.getD i 0 ^^^ m) with hfl
  have hlen : fl.length = 9 := by rw [hfl, List.length_set, h9]
  have hflt : ∀ k, k < 9 → fl.getD k 0 < 256 := by
    intro k hk
    by_cases hik : i = k
    · subst hik
      rw [hfl, getD_set_eq s i _ 0 (by omega)]
      exact xor_bit_lt_256 _ j (getD_lt_of_forall s i hlt (by omega)) hj
    · rw [hfl, getD_set_ne s i k _ 0 hik]
      exact getD_lt_of_forall s k hlt (by omega)
  have hbuf : owBytes (fun n => fl.getD n 0) 0 = fl := by
    conv_rhs => rw [eta9 fl hlen]
    simp only [owBytes]
    rw [Nat.mod_eq_of_lt (hflt 0 (by norm_num)), Nat.mod_eq_of_lt (hflt 1 (by norm_num)),
      Nat.mod_eq_of_lt (hflt 2 (by norm_num)), Nat.mod_eq_of_lt (hflt 3 (by norm_num)),
      Nat.mod_eq_of_lt (hflt 4 (by norm_num)), Nat.mod_eq_of_lt (hflt 5 (by norm_num)),
      Nat.mod_eq_of_lt (hflt 6 (by norm_num)), Nat.mod_eq_of_lt (hflt 7 (by norm_num)),
      Nat.mod_eq_of_lt (hflt 8 (by norm_num))]
  rw [hbuf, decide_eq_false_iff_not]
  have h8 : fl.getD 8 0 = s.getD 8 0 := by
    rw [hfl]
    exact getD_set_ne s i 8 _ 0 (by omega)
  have htk : fl.take 8 = (s.take 8).set i ((s.take 8).getD i 0 ^^^ m) := by
    rw [hfl, take_set_of_lt s 8 i _ hi, getD_take_lt s 8 i 0 hi]
  rw [h8, htk]
  have hlen8 : (s.take 8).length = 8 := by
    simp [List.length_take, h9]
  have hne := crc8_flip_ne (s.take 8) i m
    (by rw [hlen8]; exact hi)
    (by
      rw [hlen8, hm]
      exact crc8_single_bit_pat_ne_zero i hi j hj)
  rw [hcrc] at hne
  exact hne

/-! ## C2: discovery registry characterization -/

/-- Invariant of the `searchDevices` while-loop: starting from a
registry `acc` (with `_devices = acc.length ≤ 16`), the loop ends with
the first 16 CRC-valid candidates of `acc ++ rest` as registry, and the
count equal to the registry size. -/
theorem searchLoop_characterization (rest : List (List Nat)) :
    ∀ acc : List (List Nat), acc.length ≤ 16 →
      searchLoop acc.length acc rest
        = (((acc ++ rest.filter validRom).take 16).length,
            (acc ++ rest.filter validRom).take 16) := by
  induction rest with
  | nil =>
      intro acc h
      simp [searchLoop, List.take_of_length_le h]
  | cons a rest ih =>
      intro acc h
      by_cases hlt : acc.length < 16
      · simp only [searchLoop, if_pos hlt]
        by_cases hv : validRom a
        · rw [if_pos hv]
          rw [show acc.length + 1 = (acc ++ [a]).length by simp]
          rw [ih (acc ++ [a]) (by simp; omega)]
          simp [List.filter_cons, hv, List.append_assoc]
        · rw [if_neg hv]
          rw [ih acc h]
          simp [List.filter_cons, hv]
      · have h16 : acc.length = 16 := by omega
        simp only [searchLoop, if_neg hlt]
        rw [List.take_append_of_le_length (by omega),
          List.take_of_length_le (by omega), h16]

/-- The registry produced by discovery is exactly the first 16 CRC-valid
candidates, and the returned count is its size. -/
theorem searchDevices_filter_take (found : List (List Nat)) :
    searchDevices found
      = (((found.filter validRom).take 16).length, (found.filter validRom).take 16) := by
  have h := searchLoop_characterization found [] (by simp)
  simpa [searchDevices] using h

/-- A CRC-completed ROM address with family byte `k`. -/
def mkAddr (k : Nat) : List Nat := [k, 0, 0, 0, 0, 0, 0, crc8 [k, 0, 0, 0, 0, 0, 0]]


/-! ## Full-trace lemmas for `readTemperature` and `copyScratchpad` -/

/-- The resolution clamp `if (res < 9 || res > 12) res = 12` in
`readTemperature`. -/
def clampRes (r : Nat) : Nat := if r < 9 ∨ 12 < r then 12 else r

theorem oracleCtx_pin (p : Int) : (oracleCtx p).pin = p := rfl

theorem owReset_oracle (p : Int) (f : Nat → Nat) (i : Nat) (ev : List Ev) :
    owReset (oracleCtx p) ⟨⟨f, i⟩, ev⟩ = ⟨⟨f, i⟩, ev ++ [Ev.reset]⟩ :=
  rfl

theorem owSelect_oracle (p : Int) (addr : List Nat) (f : Nat → Nat) (i : Nat) (ev : List Ev) :
    owSelect (oracleCtx p) addr ⟨⟨f, i⟩, ev⟩ = ⟨⟨f, i⟩, ev ++ [Ev.select addr]⟩ :=
  rfl

theorem owWrite_oracle (p : Int) (b : Nat) (f : Nat → Nat) (i : Nat) (ev : List Ev) :
    owWrite (oracleCtx p) b ⟨⟨f, i⟩, ev⟩ = ⟨⟨f, i⟩, ev ++ [Ev.write (b % 256)]⟩ :=
  rfl

/-- A full run of `readTemperature` over the oracle bus: reads 0..8 feed
the resolution query, read 9 the power query, reads 10..18 the final
scratchpad; the pullup brackets the delay exactly when the power byte
differs from 1 and a pullup pin is configured; the result decodes the
final scratchpad iff its CRC is valid. -/
theorem readTemperature_oracle (p : Int) (addr : List Nat) (f : Nat → Nat) (ev : List Ev) :
    readTemperature (oracleCtx p) addr ⟨⟨f, 0⟩, ev⟩ =
      ((if crc8 ((owBytes f 10).take 8) = (owBytes f 10).getD 8 0
          then some ((toInt16 ((owBytes f 10).getD 1 0 <<< 8 ||| (owBytes f 10).getD 0 0) : ℚ)
            / 16)
          else none),
        ⟨⟨f, 19⟩,
          ev ++ [Ev.reset, Ev.select addr, Ev.write 0x44] ++ rsEv addr (owBytes f 0)
            ++ rpEv addr (f 9 % 256)
            ++ (if f 9 % 256 ≠ 1 ∧ 0 ≤ p then [Ev.pullup true] else [])
            ++ [Ev.delayMs (conversionDelayMs (clampRes (resOf (owBytes f 0))))]
            ++ (if f 9 % 256 ≠ 1 ∧ 0 ≤ p then [Ev.pullup false] else [])
            ++ rsEv addr (owBytes f 10)⟩) := by
  simp only [readTemperature, owWrite_oracle, owSelect_oracle, owReset_oracle,
    getResolution_oracle, readPowerSupply_oracle]
  by_cases hv : f 9 % 256 = 1
  · simp [hv, delayEv, readScratchpad_oracle, clampRes, oracleCtx_pin]
    all_goals split <;> rfl
  · by_cases hp : 0 ≤ p
    · have hnl : ¬p < 0 := by omega
      simp [hv, hp, hnl, strongPullup, delayEv, readScratchpad_oracle, clampRes, oracleCtx_pin]
      all_goals split <;> rfl
    · have hl : p < 0 := by omega
      simp [hv, hp, hl, strongPullup, delayEv, readScratchpad_oracle, clampRes, oracleCtx_pin]
      all_goals split <;> rfl

/-- C8 (amended): the full `copyScratchpad` transaction order.  The
power-supply query — a complete bus transaction (reset, select, command
0xB4, one read slot) — is issued after the EEPROM-copy command 0x48 and
before the pullup window, which brackets only the 11 ms delay and opens
exactly when the power byte differs from 1 and a pullup pin is
configured.  The call always reports success. -/
theorem copyScratchpad_oracle (p : Int) (addr : List Nat) (f : Nat → Nat) (i : Nat)
    (ev : List Ev) :
    copyScratchpad (oracleCtx p) addr ⟨⟨f, i⟩, ev⟩ =
      (true, ⟨⟨f, i + 1⟩,
        ev ++ [Ev.reset, Ev.select addr, Ev.write 0x48] ++ rpEv addr (f i % 256)
          ++ (if f i % 256 ≠ 1 ∧ 0 ≤ p
              then [Ev.pullup true, Ev.delayMs 11, Ev.pullup false]
              else [Ev.delayMs 11])⟩) := by
  simp only [copyScratchpad, owWrite_oracle, owSelect_oracle, owReset_oracle,
    readPowerSupply_oracle]
  by_cases hv : f i % 256 = 1
  · simp [hv, delayEv, oracleCtx_pin, rpEv]
  · by_cases hp : 0 ≤ p
    · have hnl : ¬p < 0 := by omega
      simp [hv, hp, hnl, strongPullup, delayEv, oracleCtx_pin, rpEv]
    · have hl : p < 0 := by omega
      simp [hv, hp, hl, strongPullup, delayEv, oracleCtx_pin, rpEv]

/-! ## Claim theorems -/

/-- C1: every 9-byte scratchpad read succeeds iff CRC-8 over the first 8
delivered bytes equals the 9th (over every possible bus behaviour), and
flipping any single bit of the first 8 bytes of a CRC-valid scratchpad
image makes the read fail. -/
theorem readScratchpad_crc_gate :
    (∀ (σ : Type) (C : Ctx σ) (addr : List Nat) (s : Drv σ),
      (readScratchpad C addr s).1.2.length = 9 ∧
      ((readScratchpad C addr s).1.1 = true ↔
        crc8 ((readScratchpad C addr s).1.2.take 8)
          = (readScratchpad C addr s).1.2.getD 8 0)) ∧
    (∀ (p : Int) (addr : List Nat) (ev : List Ev) (s : List Nat),
      s.length = 9 → (∀ b ∈ s, b < 256) → crc8 (s.take 8) = s.getD 8 0 →
      ∀ i < 8, ∀ j < 8,
        (readScratchpad (oracleCtx p) addr
          ⟨⟨fun n => (s.set i (s.getD i 0 ^^^ (1 <<< j))).getD n 0, 0⟩, ev⟩).1.1 = false) :=
  ⟨fun _ C addr s => readScratchpad_crc_iff C addr s,
   fun p addr ev s h9 hlt hcrc i hi j hj =>
     readScratchpad_flip_reject p addr ev s h9 hlt hcrc i j hi hj⟩

set_option maxRecDepth 10000 in
/-- Witness for C1: a concrete CRC-valid scratchpad image whose bit 0 of
byte 0 is flipped is rejected. -/
theorem readScratchpad_crc_gate_witness :
    (readScratchpad (oracleCtx (-1)) []
      ⟨⟨fun n => (([1, 2, 3, 4, 5, 6, 7, 8, crc8 [1, 2, 3, 4, 5, 6, 7, 8]].set 0
        ([1, 2, 3, 4, 5, 6, 7, 8, crc8 [1, 2, 3, 4, 5, 6, 7, 8]].getD 0 0 ^^^ (1 <<< 0)))).getD
          n 0, 0⟩, []⟩).1.1 = false :=
  readScratchpad_crc_gate.2 (-1) [] [] [1, 2, 3, 4, 5, 6, 7, 8, crc8 [1, 2, 3, 4, 5, 6, 7, 8]]
    (by decide) (by decide) (by decide) 0 (by decide) 0 (by decide)

set_option maxRecDepth 100000 in
/-- Counterexample to C2 as stated: with seventeen CRC-valid candidates
on the bus, the seventeenth is returned by the search, is CRC-valid, yet
is not accepted into the registry (capacity `DS18B20_MAX_DEVICES = 16`). -/
theorem searchDevices_seventeenth_dropped :
    mkAddr 16 ∈ (List.range 17).map mkAddr ∧
    validRom (mkAddr 16) = true ∧
    mkAddr 16 ∉ (searchDevices ((List.range 17).map mkAddr)).2 ∧
    (searchDevices ((List.range 17).map mkAddr)).1 = 16 := by decide

/-- A bus stream delivering the scratchpad image for raw register
0x0191 (25.0625 °C) at the post-conversion read (reads 10..18). -/
def scA : Nat → Nat :=
  fun n => [0x91, 0x01, 0, 0, 0, 0, 0, 0, crc8 [0x91, 0x01, 0, 0, 0, 0, 0, 0]].getD (n - 10) 0

/-- A bus stream delivering the scratchpad image for raw register
0xFF5E (-10.125 °C) at the post-conversion read. -/
def scB : Nat → Nat :=
  fun n => [0x5E, 0xFF, 0, 0, 0, 0, 0, 0, crc8 [0x5E, 0xFF, 0, 0, 0, 0, 0, 0]].getD (n - 10) 0

set_option maxRecDepth 10000 in
/-- C3: whenever the post-conversion scratchpad read is CRC-valid,
`readTemperature` decodes the signed 16-bit register (byte 1 MSB, byte 0
LSB) as raw/16 °C; register 0x0191 gives 25.0625 °C and 0xFF5E gives
-10.125 °C. -/
theorem readTemperature_decode :
    (∀ (p : Int) (addr : List Nat) (f : Nat → Nat) (ev : List Ev),
      crc8 ((owBytes f 10).take 8) = (owBytes f 10).getD 8 0 →
      (readTemperature (oracleCtx p) addr ⟨⟨f, 0⟩, ev⟩).1
        = some ((toInt16 ((owBytes f 10).getD 1 0 <<< 8 ||| (owBytes f 10).getD 0 0) : ℚ)
            / 16)) ∧
    (readTemperature (oracleCtx (-1)) [] ⟨⟨scA, 0⟩, []⟩).1 = some (25.0625 : ℚ) ∧
    (readTemperature (oracleCtx (-1)) [] ⟨⟨scB, 0⟩, []⟩).1 = some (-10.125 : ℚ) := by
  refine ⟨fun p addr f ev hcrc => ?_, ?_, ?_⟩
  · rw [readTemperature_oracle]
    simp [hcrc]
  · rw [readTemperature_oracle]
    rw [if_pos (by decide : crc8 ((owBytes scA 10).take 8) = (owBytes scA 10).getD 8 0)]
    rw [(by decide : (owBytes scA 10).getD 1 0 <<< 8 ||| (owBytes scA 10).getD 0 0 = 401),
      (by decide : toInt16 401 = 401)]
    norm_num
  · rw [readTemperature_oracle]
    rw [if_pos (by decide : crc8 ((owBytes scB 10).take 8) = (owBytes scB 10).getD 8 0)]
    rw [(by decide : (owBytes scB 10).getD 1 0 <<< 8 ||| (owBytes scB 10).getD 0 0 = 65374),
      (by decide : toInt16 65374 = -162)]
    norm_num

set_option maxRecDepth 10000 in
/-- Witness for C3: a stream delivering the 0x0191 register with a valid
CRC decodes through the general statement to 401/16 °C. -/
theorem readTemperature_decode_witness :
    (readTemperature (oracleCtx (-1)) [] ⟨⟨scA, 0⟩, []⟩).1
      = some ((toInt16 ((owBytes scA 10).getD 1 0 <<< 8 ||| (owBytes scA 10).getD 0 0) : ℚ)
          / 16) :=
  readTemperature_decode.1 (-1) [] scA [] (by decide)

/-- C4: on a device whose reads succeed and whose writes echo back
faithfully, `setResolution(addr, R, persist := false)` succeeds and a
following `getResolution(addr)` returns R, for every R in 9..12. -/
theorem setResolution_roundTrip (d : Dev) (p : Int) (addr : List Nat) (R : Nat)
    (hR : R = 9 ∨ R = 10 ∨ R = 11 ∨ R = 12) :
    (setResolution (devCtx p) addr R false (initDrv d)).1 = true ∧
    (getResolution (devCtx p) addr (setResolution (devCtx p) addr R false (initDrv d)).2).1
      = R :=
  setResolution_getResolution_dev d p addr R hR

/-- Witness for C4 at R = 12 on a zeroed device. -/
theorem setResolution_roundTrip_witness :
    (setResolution (devCtx (-1)) [] 12 false
      (initDrv ⟨0, 0, 0, 0, 0, 0, 0, 0, 0, [], 0⟩)).1 = true ∧
    (getResolution (devCtx (-1)) []
      (setResolution (devCtx (-1)) [] 12 false
        (initDrv ⟨0, 0, 0, 0, 0, 0, 0, 0, 0, [], 0⟩)).2).1 = 12 :=
  setResolution_roundTrip ⟨0, 0, 0, 0, 0, 0, 0, 0, 0, [], 0⟩ (-1) [] 12 (by norm_num)

/-- C5: on a faithful device, `setAlarms(addr, TH, TL)` succeeds for the
whole signed 8-bit range, a following `getAlarms` returns (TH, TL)
unchanged, and the config byte (hence its resolution bits) is left
untouched. -/
theorem setAlarms_roundTrip (d : Dev) (p : Int) (addr : List Nat) (th tl : Int)
    (h1 : -128 ≤ th) (h2 : th ≤ 127) (h3 : -128 ≤ tl) (h4 : tl ≤ 127) :
    (setAlarms (devCtx p) addr th tl false (initDrv d)).1 = true ∧
    (getAlarms (devCtx p) addr (setAlarms (devCtx p) addr th tl false (initDrv d)).2).1
      = (true, th, tl) ∧
    (setAlarms (devCtx p) addr th tl false (initDrv d)).2.bus.cfg = d.cfg % 256 :=
  setAlarms_getAlarms_dev d p addr th tl h1 h2 h3 h4

/-- Witness for C5 at the boundary thresholds TH = -128, TL = 127. -/
theorem setAlarms_roundTrip_witness :
    (setAlarms (devCtx (-1)) [] (-128) 127 false
      (initDrv ⟨0, 0, 0, 0, 0x7F, 0, 0, 0, 0, [], 0⟩)).1 = true ∧
    (getAlarms (devCtx (-1)) []
      (setAlarms (devCtx (-1)) [] (-128) 127 false
        (initDrv ⟨0, 0, 0, 0, 0x7F, 0, 0, 0, 0, [], 0⟩)).2).1 = (true, -128, 127) ∧
    (setAlarms (devCtx (-1)) [] (-128) 127 false
      (initDrv ⟨0, 0, 0, 0, 0x7F, 0, 0, 0, 0, [], 0⟩)).2.bus.cfg = 0x7F % 256 :=
  setAlarms_roundTrip ⟨0, 0, 0, 0, 0x7F, 0, 0, 0, 0, [], 0⟩ (-1) [] (-128) 127
    (by norm_num) (by norm_num) (by norm_num) (by norm_num)

/-- C6: the conversion wait table is 9 → 94 ms, 10 → 188 ms,
11 → 375 ms, 12 → 750 ms, any other value → 750 ms; and every
`readTemperature` run waits exactly the table entry for its clamped
resolution. -/
theorem conversionDelay_selection :
    conversionDelayMs 9 = 94 ∧ conversionDelayMs 10 = 188 ∧ conversionDelayMs 11 = 375 ∧
    conversionDelayMs 12 = 750 ∧
    (∀ r : Nat, r ≠ 9 → r ≠ 10 → r ≠ 11 → conversionDelayMs r = 750) ∧
    (∀ (p : Int) (addr : List Nat) (f : Nat → Nat) (ev : List Ev),
      Ev.delayMs (conversionDelayMs (clampRes (resOf (owBytes f 0))))
        ∈ (readTemperature (oracleCtx p) addr ⟨⟨f, 0⟩, ev⟩).2.events) := by
  refine ⟨rfl, rfl, rfl, rfl, fun r h9 h10 h11 => ?_, fun p addr f ev => ?_⟩
  · simp [conversionDelayMs, h9, h10, h11]
  · rw [readTemperature_oracle]
    simp

/-- Witness for C6: an unrecognized resolution argument (13) selects the
default 750 ms wait. -/
theorem conversionDelay_selection_witness : conversionDelayMs 13 = 750 :=
  conversionDelay_selection.2.2.2.2.1 13 (by norm_num) (by norm_num) (by norm_num)

set_option maxRecDepth 10000 in
/-- Counterexample to C7 as stated: a bus stream of constant 2 makes
every CRC check fail (so `readTemperature` returns NaN), yet the power
query reads 2 ≠ 1, so with a configured pullup pin the strong pullup IS
asserted during the call. -/
theorem readTemperature_pullup_despite_crc_fail :
    (readTemperature (oracleCtx 2) [] ⟨⟨fun _ => 2, 0⟩, []⟩).1 = none ∧
    Ev.pullup true ∈ (readTemperature (oracleCtx 2) [] ⟨⟨fun _ => 2, 0⟩, []⟩).2.events := by
  rw [readTemperature_oracle]
  constructor
  · rw [if_neg (by decide : ¬crc8 ((owBytes (fun _ => 2 : Nat → Nat) 10).take 8)
      = (owBytes (fun _ => 2 : Nat → Nat) 10).getD 8 0)]
  · simp [rsEv, rpEv]

/-- C7 (amended): when the post-conversion scratchpad read fails its CRC
check, `readTemperature` returns NaN; the strong pullup is asserted
during the call iff the power-supply query read a byte ≠ 1 and a pullup
pin is configured — independent of the CRC outcome. -/
theorem readTemperature_crc_fail_nan (p : Int) (addr : List Nat) (f : Nat → Nat)
    (hcrc : crc8 ((owBytes f 10).take 8) ≠ (owBytes f 10).getD 8 0) :
    (readTemperature (oracleCtx p) addr ⟨⟨f, 0⟩, []⟩).1 = none ∧
    (Ev.pullup true ∈ (readTemperature (oracleCtx p) addr ⟨⟨f, 0⟩, []⟩).2.events ↔
      (f 9 % 256 ≠ 1 ∧ 0 ≤ p)) := by
  rw [readTemperature_oracle]
  have hcrc2 : ¬crc8 (List.take 8 (owBytes f 10)) = (owBytes f 10)[8]?.getD 0 := by
    simpa using hcrc
  constructor
  · simp [hcrc2]
  · by_cases hc : f 9 % 256 ≠ 1 ∧ 0 ≤ p <;> simp [hc, rsEv, rpEv]

set_option maxRecDepth 10000 in
/-- Witness for C7: at the constant-2 stream with pin 2 the read fails,
the result is NaN, and the pullup-assertion condition holds. -/
theorem readTemperature_crc_fail_nan_witness :
    (readTemperature (oracleCtx 2) [] ⟨⟨fun _ => 2, 0⟩, []⟩).1 = none ∧
    (Ev.pullup true ∈ (readTemperature (oracleCtx 2) [] ⟨⟨fun _ => 2, 0⟩, []⟩).2.events ↔
      ((fun _ => 2 : Nat → Nat) 9 % 256 ≠ 1 ∧ (0 : Int) ≤ 2)) :=
  readTemperature_crc_fail_nan 2 [] (fun _ => 2) (by decide)

set_option maxRecDepth 10000 in
/-- Counterexample to C8 as stated: on a parasite-reporting bus (power
byte 0) with pullup pin 2, the trace of `copyScratchpad` contains a full
bus transaction — starting with a reset at position 3 — strictly between
the EEPROM-copy command (position 2) and the pullup de-assertion
(position 9). -/
theorem copyScratchpad_transaction_between :
    (copyScratchpad (oracleCtx 2) [7] ⟨⟨fun _ => 0, 0⟩, []⟩).2.events
      = [Ev.reset, Ev.select [7], Ev.write 0x48, Ev.reset, Ev.select [7], Ev.write 0xB4,
          Ev.readByte 0, Ev.pullup true, Ev.delayMs 11, Ev.pullup false] ∧
    (copyScratchpad (oracleCtx 2) [7] ⟨⟨fun _ => 0, 0⟩, []⟩).2.events.getD 2 Ev.reset
      = Ev.write 0x48 ∧
    (copyScratchpad (oracleCtx 2) [7] ⟨⟨fun _ => 0, 0⟩, []⟩).2.events.getD 3 (Ev.write 0)
      = Ev.reset ∧
    (copyScratchpad (oracleCtx 2) [7] ⟨⟨fun _ => 0, 0⟩, []⟩).2.events.getD 9 Ev.reset
      = Ev.pullup false := by
  rw [copyScratchpad_oracle]
  simp [rpEv]

/-- C8 (amended): `copyScratchpad` issues the EEPROM-copy command 0x48
first and only then queries the power mode — a full bus transaction
(reset, select, 0xB4, one read slot) between the copy command and the
pullup window; when the power byte differs from 1 and a pullup pin is
configured, the pullup brackets exactly the 11 ms delay; the call always
reports success. -/
theorem copyScratchpad_sequence (p : Int) (addr : List Nat) (f : Nat → Nat) (i : Nat)
    (ev : List Ev) :
    copyScratchpad (oracleCtx p) addr ⟨⟨f, i⟩, ev⟩ =
      (true, ⟨⟨f, i + 1⟩,
        ev ++ [Ev.reset, Ev.select addr, Ev.write 0x48] ++ rpEv addr (f i % 256)
          ++ (if f i % 256 ≠ 1 ∧ 0 ≤ p
              then [Ev.pullup true, Ev.delayMs 11, Ev.pullup false]
              else [Ev.delayMs 11])⟩) :=
  copyScratchpad_oracle p addr f i ev

/-- C9: a resolution outside 9..12 makes `setResolution` fail
immediately, with the driver state — bus and event trace — left exactly
as it was (no bus activity at all), over every bus model. -/
theorem setResolution_invalid_rejected {σ : Type} (C : Ctx σ) (addr : List Nat) (r : Nat)
    (persist : Bool) (s : Drv σ) (h : r < 9 ∨ 12 < r) :
    setResolution C addr r persist s = (false, s) := by
  unfold setResolution
  rw [if_pos h]

/-- Witness for C9 at resolution 13 over the oracle bus. -/
theorem setResolution_invalid_rejected_witness :
    setResolution (oracleCtx 0) [] 13 false (initDrv ⟨fun _ => 0, 0⟩)
      = (false, initDrv ⟨fun _ => 0, 0⟩) :=
  setResolution_invalid_rejected (oracleCtx 0) [] 13 false (initDrv ⟨fun _ => 0, 0⟩)
    (by norm_num)

/-- C10: `readPowerSupply` always reports success (over every bus model
and state), sets the external-power flag exactly when the byte read
equals 1, and `isParasitePower` therefore always returns the negation of
that flag — its cannot-determine branch is unreachable; likewise
the pullup decision in `readTemperature` depends only on the power byte and
the pin, never on the (unreachable) cannot-determine path. -/
theorem readPowerSupply_always_true :
    (∀ (σ : Type) (C : Ctx σ) (addr : List Nat) (s : Drv σ),
      (readPowerSupply C addr s).1.1 = true) ∧
    (∀ (p : Int) (addr : List Nat) (f : Nat → Nat) (i : Nat) (ev : List Ev),
      (readPowerSupply (oracleCtx p) addr ⟨⟨f, i⟩, ev⟩).1.2 = (f i % 256 == 1) ∧
      (isParasitePower (oracleCtx p) addr ⟨⟨f, i⟩, ev⟩).1 = !(f i % 256 == 1)) ∧
    (∀ (p : Int) (addr : List Nat) (f : Nat → Nat),
      Ev.pullup true ∈ (readTemperature (oracleCtx p) addr ⟨⟨f, 0⟩, []⟩).2.events ↔
        (f 9 % 256 ≠ 1 ∧ 0 ≤ p)) := by
  refine ⟨fun σ C addr s => rfl, fun p addr f i ev => ?_, fun p addr f => ?_⟩
  · constructor <;> simp [isParasitePower, readPowerSupply_oracle]
  · rw [readTemperature_oracle]
    by_cases hc : f 9 % 256 ≠ 1 ∧ 0 ≤ p <;> simp [hc, rsEv, rpEv]

end DS18B20
